import Mathlib

/-!
Verification of the bplIO raw terminal input facility (src/bplIO.hpp).

The facility is a thin wrapper over POSIX terminal control: it clears the
ICANON bit of the terminal's local-mode flags on first enable, keeping a
one-shot backup of the attribute set, and restores that backup on disable.
We embed the terminal attribute set, the stdin byte queue, the stdio
buffering mode and the two static variables (`initialized`, `term_backup`)
as one explicit state, and each member function of class bplIO as a pure
state transformer.  Every underlying OS call also yields a status code,
drawn from an environment `SysOutcomes` chosen by the adversary; the
wrappers receive those codes exactly where the C code receives return
values, and (as in the C code) never look at them.  Each operation also
reports the list of OS calls it performed, so that "one direct call, no
retry" is provable.
-/

/-- Linux value of the ICANON local-mode flag (bit 1). -/
def ICANON : Nat := 2

/-- Linux value of the ECHO local-mode flag (bit 3). -/
def ECHO : Nat := 8

/-- Bit position of ICANON inside `c_lflag`. -/
def ICANONbit : Nat := 1

/-- Bit position of ECHO inside `c_lflag`. -/
def ECHObit : Nat := 3

/-- One's complement of a value in a 32-bit unsigned word, as produced by the
C expression `~x` on a `tcflag_t`. -/
def complement32 (x : Nat) : Nat := 0xFFFFFFFF ^^^ x

/-- The `struct termios` attribute set: the four flag words (32-bit each on
Linux) and the control-character array, kept opaque as one number since the
source never touches it. -/
structure Termios where
  c_iflag : Nat
  c_oflag : Nat
  c_cflag : Nat
  c_lflag : Nat
  c_cc    : Nat
deriving DecidableEq, Repr

/-- The zero-initialized `termios`, the value a static-storage-duration
`termios` object (src/bplIO.hpp:146 `bplIO::term_backup`) holds before any
assignment. -/
def zeroTermios : Termios := ⟨0, 0, 0, 0, 0⟩

/-- Buffering mode of the stdin FILE stream (`setbuf` / `setlinebuf`). -/
inductive BufMode
  | fullyBuffered
  | lineBuffered
  | unbuffered
deriving DecidableEq, Repr

/-- States of the world the facility touches: the terminal attribute set of
fd 0, the queue of not-yet-read bytes on fd 0, the stdio buffering mode of
stdin, and the two static members of class bplIO. -/
structure IOState where
  termAttrs   : Termios
  pending     : List (Fin 256)
  stdinBuf    : BufMode
  initialized : Bool
  term_backup : Termios
deriving DecidableEq, Repr

/-- The state at program start: some terminal configuration and pending
input, `initialized = false` (src/bplIO.hpp:145) and a zero-initialized
`term_backup` (src/bplIO.hpp:146). -/
def initialState (attrs : Termios) (pend : List (Fin 256)) (buf : BufMode) : IOState :=
  { termAttrs := attrs, pending := pend, stdinBuf := buf,
    initialized := false, term_backup := zeroTermios }

/-- Names of the OS calls the facility performs, for call traces. -/
inductive Sys
  | tcgetattrC
  | tcsetattrC
  | ioctlFionreadC
  | ioctlTcflshC
  | readC
  | setbufC
  | setlinebufC
deriving DecidableEq, Repr

/-- Status codes the OS calls return in a given run; the adversary picks
them, the facility never reads them. -/
structure SysOutcomes where
  tcgetattrRet : Int
  tcsetattrRet : Int
  ioctlRet     : Int
  readRet      : Int
deriving DecidableEq, Repr

/-- All calls succeed. -/
def okOutcomes : SysOutcomes := ⟨0, 0, 0, 1⟩

/-- `tcgetattr(STDIN, &term)`: yields the current attributes and a status. -/
def tcgetattrM (o : SysOutcomes) (s : IOState) : Termios × Int :=
  (s.termAttrs, o.tcgetattrRet)

/-- `tcsetattr(STDIN, TCSANOW, &t)`: writes `t` to the terminal, yields a
status. -/
def tcsetattrM (o : SysOutcomes) (t : Termios) (s : IOState) : IOState × Int :=
  ({ s with termAttrs := t }, o.tcsetattrRet)

/-- `ioctl(STDIN, FIONREAD, &bytesWaiting)`: yields the pending byte count
and a status. -/
def ioctlFionread (o : SysOutcomes) (s : IOState) : Nat × Int :=
  (s.pending.length, o.ioctlRet)

/-- `ioctl(STDIN, TCFLSH, 0)`: argument 0 is TCIFLUSH, so the input queue is
discarded; yields a status. -/
def ioctlTcflsh (o : SysOutcomes) (s : IOState) : IOState × Int :=
  ({ s with pending := [] }, o.ioctlRet)

/-- `read(STDIN, buf, 1)`: blocks (modelled as `none`) until a byte is
pending, then consumes exactly one byte; yields it with a status. -/
def readByte (o : SysOutcomes) (s : IOState) : Option (Fin 256 × IOState × Int) :=
  match s.pending with
  | [] => none
  | b :: rest => some (b, { s with pending := rest }, o.readRet)

/-- `setbuf(stdin, nullptr)`: stdin becomes unbuffered. -/
def setbufNull (s : IOState) : IOState := { s with stdinBuf := BufMode.unbuffered }

/-- `setlinebuf(stdin)`: stdin becomes line buffered. -/
def setlinebufM (s : IOState) : IOState := { s with stdinBuf := BufMode.lineBuffered }

/-- The value the C expression `buf[0]` has as an `int` when the byte `b`
was stored into `char buf[1]`: `char` is signed on the x86-64 Linux ABI the
library targets, so bytes at or above 128 sign-extend to negatives. -/
def signExtendByte (b : Fin 256) : Int :=
  if (b : Nat) < 128 then ((b : Nat) : Int) else ((b : Nat) : Int) - 256

/-- Model of `bplIO::enableIO` (src/bplIO.hpp:54-68): on first call it reads
the attributes, saves them in `term_backup`, clears ICANON on a working copy
(`term.c_lflag &= ~ICANON`), applies it and sets `initialized`; on every
call it then does `setbuf(stdin, nullptr)`.  Status codes of `tcgetattr`
and `tcsetattr` are bound and dropped, as in the source. -/
def enable (o : SysOutcomes) (s : IOState) : IOState × List Sys :=
  if s.initialized = false then
    let g := tcgetattrM o s
    let term := g.1
    let s1 := { s with term_backup := term }
    let term2 := { term with c_lflag := term.c_lflag &&& complement32 ICANON }
    let a := tcsetattrM o term2 s1
    let s2 := { a.1 with initialized := true }
    (setbufNull s2, [Sys.tcgetattrC, Sys.tcsetattrC, Sys.setbufC])
  else
    (setbufNull s, [Sys.setbufC])

/-- Model of `bplIO::disableIO` (src/bplIO.hpp:79-83): `setlinebuf(stdin)`
then `tcsetattr(STDIN, TCSANOW, &term_backup)`.  The flag `initialized` and
the backup are left untouched; the `tcsetattr` status is dropped. -/
def disable (o : SysOutcomes) (s : IOState) : IOState × List Sys :=
  let s1 := setlinebufM s
  let a := tcsetattrM o s1.term_backup s1
  (a.1, [Sys.setlinebufC, Sys.tcsetattrC])

/-- Model of `bplIO::_kbhit` (src/bplIO.hpp:95-100): one FIONREAD ioctl,
returning `bytesWaiting`; the ioctl status is dropped and the state is not
changed. -/
def pollInput (o : SysOutcomes) (s : IOState) : Int × IOState × List Sys :=
  let r := ioctlFionread o s
  let bytesWaiting := r.1
  ((bytesWaiting : Int), s, [Sys.ioctlFionreadC])

/-- Model of `bplIO::_getch` (src/bplIO.hpp:114-120): one blocking
`read(STDIN, buf, 1)` and `return buf[0]`; `none` models the read blocking
forever on empty input.  The byte count `read` returned is dropped. -/
def readChar (o : SysOutcomes) (s : IOState) : Option (Int × IOState × List Sys) :=
  match readByte o s with
  | none => none
  | some (b, s1, _status) => some (signExtendByte b, s1, [Sys.readC])

/-- Model of `bplIO::_flush` (src/bplIO.hpp:129-132): one
`ioctl(STDIN, TCFLSH, 0)` discarding the input queue; its status is
dropped. -/
def flushInput (o : SysOutcomes) (s : IOState) : IOState × List Sys :=
  let a := ioctlTcflsh o s
  (a.1, [Sys.ioctlTcflshC])

/-- Calls a client may interleave for the enable/disable round-trip
properties. -/
inductive TermOp
  | enableOp
  | disableOp
deriving DecidableEq, Repr

/-- Effect of one client call on the state. -/
def stepOp : TermOp → IOState → IOState
  | TermOp.enableOp, s => (enable okOutcomes s).1
  | TermOp.disableOp, s => (disable okOutcomes s).1

/-- Effect of a sequence of enable/disable calls, first element first. -/
def runOps (ops : List TermOp) (s : IOState) : IOState :=
  ops.foldl (fun t op => stepOp op t) s

example : (enable okOutcomes (initialState ⟨0,0,0,10,0⟩ [] BufMode.lineBuffered)).1.termAttrs.c_lflag = 8 := by decide

example : (disable okOutcomes (enable okOutcomes (initialState ⟨0,0,0,10,0⟩ [] BufMode.lineBuffered)).1).1.termAttrs = ⟨0,0,0,10,0⟩ := by decide

/-- One client call keeps `initialized` true and keeps the backup, once the
facility has been enabled at least once. -/
lemma stepOp_preserves (op : TermOp) (s : IOState) (h : s.initialized = true) :
    (stepOp op s).initialized = true ∧ (stepOp op s).term_backup = s.term_backup := by
  cases op
  · simp [stepOp, enable, h, setbufNull]
  · simp [stepOp, disable, setlinebufM, tcsetattrM, h]

lemma runOps_cons (op : TermOp) (ops : List TermOp) (s : IOState) :
    runOps (op :: ops) s = runOps ops (stepOp op s) := rfl

lemma runOps_append (l1 l2 : List TermOp) (s : IOState) :
    runOps (l1 ++ l2) s = runOps l2 (runOps l1 s) := by
  simp [runOps, List.foldl_append]

/-- Any sequence of client calls keeps `initialized` true and keeps the
backup, once the facility has been enabled at least once. -/
lemma runOps_preserves (ops : List TermOp) (s : IOState) (h : s.initialized = true) :
    (runOps ops s).initialized = true ∧ (runOps ops s).term_backup = s.term_backup := by
  induction ops generalizing s with
  | nil => exact ⟨h, rfl⟩
  | cons op rest ih =>
    have hs := stepOp_preserves op s h
    have hr := ih (stepOp op s) hs.1
    rw [runOps_cons]
    exact ⟨hr.1, hr.2.trans hs.2⟩

/-- A first enable captures the pre-call attributes and sets the flag. -/
lemma enable_first (o : SysOutcomes) (s : IOState) (h : s.initialized = false) :
    (enable o s).1.initialized = true ∧ (enable o s).1.term_backup = s.termAttrs := by
  simp [enable, h, tcgetattrM, tcsetattrM, setbufNull]

/-- After a sequence beginning with an enable from a never-enabled state,
any disable writes back exactly the attribute set that was current before
that first enable. -/
lemma round_trip_restores (s : IOState) (p : List TermOp) (h : s.initialized = false) :
    (runOps (TermOp.enableOp :: (p ++ [TermOp.disableOp])) s).termAttrs = s.termAttrs := by
  rw [runOps_cons, runOps_append]
  have h1 := enable_first okOutcomes s h
  have h2 := runOps_preserves p (stepOp TermOp.enableOp s) h1.1
  show (stepOp TermOp.disableOp (runOps p (stepOp TermOp.enableOp s))).termAttrs = s.termAttrs
  simp [stepOp, disable, setlinebufM, tcsetattrM]
  exact h2.2.trans h1.2

/-- C1: in every sequence of enable/disable calls that begins with an
enable from a never-enabled state, the terminal's ECHO and ICANON flags
right after any later disable equal their values right before the first
enable (round-trip restoration; the model has no external writers). -/
theorem c1_round_trip (s : IOState) (p : List TermOp) (h : s.initialized = false) :
    (runOps (TermOp.enableOp :: (p ++ [TermOp.disableOp])) s).termAttrs.c_lflag &&& ECHO
        = s.termAttrs.c_lflag &&& ECHO
    ∧ (runOps (TermOp.enableOp :: (p ++ [TermOp.disableOp])) s).termAttrs.c_lflag &&& ICANON
        = s.termAttrs.c_lflag &&& ICANON := by
  rw [round_trip_restores s p h]
  exact ⟨rfl, rfl⟩

theorem c1_round_trip_witness :
    (initialState ⟨1, 2, 3, 10, 4⟩ [] BufMode.lineBuffered).initialized = false
    ∧ ((runOps (TermOp.enableOp :: ([TermOp.enableOp, TermOp.disableOp] ++ [TermOp.disableOp]))
          (initialState ⟨1, 2, 3, 10, 4⟩ [] BufMode.lineBuffered)).termAttrs.c_lflag &&& ECHO
        = (initialState ⟨1, 2, 3, 10, 4⟩ [] BufMode.lineBuffered).termAttrs.c_lflag &&& ECHO
      ∧ (runOps (TermOp.enableOp :: ([TermOp.enableOp, TermOp.disableOp] ++ [TermOp.disableOp]))
          (initialState ⟨1, 2, 3, 10, 4⟩ [] BufMode.lineBuffered)).termAttrs.c_lflag &&& ICANON
        = (initialState ⟨1, 2, 3, 10, 4⟩ [] BufMode.lineBuffered).termAttrs.c_lflag &&& ICANON) :=
  ⟨rfl, c1_round_trip (initialState ⟨1, 2, 3, 10, 4⟩ [] BufMode.lineBuffered)
    [TermOp.enableOp, TermOp.disableOp] rfl⟩

/-- C4: enabling twice in a row and then disabling once writes back the
full attribute set that was active before the first enable; the second
enable does not overwrite the saved snapshot. -/
theorem c4_double_enable (o1 o2 o3 : SysOutcomes) (s : IOState) (h : s.initialized = false) :
    (disable o3 ((enable o2 ((enable o1 s).1)).1)).1.termAttrs = s.termAttrs
    ∧ (enable o2 ((enable o1 s).1)).1.term_backup = s.termAttrs := by
  simp [enable, disable, h, tcgetattrM, tcsetattrM, setbufNull, setlinebufM]

theorem c4_double_enable_witness :
    (initialState ⟨5, 6, 7, 11, 8⟩ [] BufMode.fullyBuffered).initialized = false
    ∧ ((disable okOutcomes ((enable okOutcomes ((enable okOutcomes
          (initialState ⟨5, 6, 7, 11, 8⟩ [] BufMode.fullyBuffered)).1)).1)).1.termAttrs
        = (initialState ⟨5, 6, 7, 11, 8⟩ [] BufMode.fullyBuffered).termAttrs
      ∧ (enable okOutcomes ((enable okOutcomes
          (initialState ⟨5, 6, 7, 11, 8⟩ [] BufMode.fullyBuffered)).1)).1.term_backup
        = (initialState ⟨5, 6, 7, 11, 8⟩ [] BufMode.fullyBuffered).termAttrs) :=
  ⟨rfl, c4_double_enable okOutcomes okOutcomes okOutcomes
    (initialState ⟨5, 6, 7, 11, 8⟩ [] BufMode.fullyBuffered) rfl⟩

/-- C5: the snapshot is captured exactly once and before any modification:
enable always leaves the flag true; disable never resets the flag; a first
enable stores the pre-modification attributes in the backup; an enable with
the flag already set does not recapture; disable never rewrites the
backup. -/
theorem c5_capture_invariant (o : SysOutcomes) (s : IOState) :
    (enable o s).1.initialized = true
    ∧ (disable o s).1.initialized = s.initialized
    ∧ (enable o { s with initialized := false }).1.term_backup = s.termAttrs
    ∧ (enable o { s with initialized := true }).1.term_backup = s.term_backup
    ∧ (disable o s).1.term_backup = s.term_backup := by
  cases hi : s.initialized <;>
    simp [enable, disable, hi, tcgetattrM, tcsetattrM, setbufNull, setlinebufM]

/-- C2 (evaluation at the failing input): on a terminal whose local-mode
flags are ICANON|ECHO (the usual cooked-mode configuration, value 10), the
first enable leaves the ECHO bit set — `enableIO` clears only ICANON
(src/bplIO.hpp:62), so the driver still redisplays every byte `_getch`
reads, contradicting the doc comment of `_getch` (src/bplIO.hpp:105-106,
"read single character from the input without echo"). -/
theorem c2_echo_left_enabled :
    ((enable okOutcomes (initialState ⟨0, 0, 0, 10, 0⟩ [] BufMode.lineBuffered)).1.termAttrs.c_lflag
        &&& ECHO = ECHO)
    ∧ Nat.testBit
        (enable okOutcomes (initialState ⟨0, 0, 0, 10, 0⟩ [] BufMode.lineBuffered)).1.termAttrs.c_lflag
        ECHObit = true := by
  constructor <;> decide

/-- The state with exactly the byte 255 pending, used to refute C3. -/
def stByte255 : IOState :=
  initialState ⟨0, 0, 0, 8, 0⟩ [(255 : Fin 256)] BufMode.unbuffered

/-- C3 (counterexample): when the pending byte is 255, `_getch` returns -1,
not 255 — `return buf[0]` sign-extends the signed `char`, so the byte's
numeric value is not returned unmodified. -/
theorem c3_counterexample :
    (readChar okOutcomes stByte255).map (fun r => r.1) = some (-1)
    ∧ ((-1 : Int) ≠ (255 : Int)) := by
  constructor <;> decide

/-- C3 (amended): `_getch` returns the pending byte read as a signed 8-bit
value: bytes below 128 are returned exactly (the byte 97 for the key 'a'
yields 97), bytes at or above 128 are returned as the byte value minus
256. -/
theorem c3_signed_read (o : SysOutcomes) (s : IOState) (b : Fin 256) (rest : List (Fin 256))
    (h : s.pending = b :: rest) :
    readChar o s = some (signExtendByte b, { s with pending := rest }, [Sys.readC])
    ∧ ((b : Nat) < 128 → signExtendByte b = ((b : Nat) : Int))
    ∧ (128 ≤ (b : Nat) → signExtendByte b = ((b : Nat) : Int) - 256)
    ∧ ((b : Nat) = 97 → signExtendByte b = 97) := by
  refine ⟨?_, ?_, ?_, ?_⟩
  · simp [readChar, readByte, h]
  · intro hb
    simp [signExtendByte, hb]
  · intro hb
    simp [signExtendByte, Nat.not_lt.mpr hb]
  · intro hb
    simp [signExtendByte, hb]

theorem c3_signed_read_witness :
    (initialState ⟨0, 0, 0, 8, 0⟩ [(97 : Fin 256)] BufMode.unbuffered).pending
        = (97 : Fin 256) :: []
    ∧ (readChar okOutcomes (initialState ⟨0, 0, 0, 8, 0⟩ [(97 : Fin 256)] BufMode.unbuffered)
        = some (signExtendByte (97 : Fin 256),
            { initialState ⟨0, 0, 0, 8, 0⟩ [(97 : Fin 256)] BufMode.unbuffered with pending := [] },
            [Sys.readC])
      ∧ (((97 : Fin 256) : Nat) < 128 → signExtendByte (97 : Fin 256) = (((97 : Fin 256) : Nat) : Int))
      ∧ (128 ≤ ((97 : Fin 256) : Nat) → signExtendByte (97 : Fin 256) = (((97 : Fin 256) : Nat) : Int) - 256)
      ∧ (((97 : Fin 256) : Nat) = 97 → signExtendByte (97 : Fin 256) = 97)) :=
  ⟨rfl, c3_signed_read okOutcomes
    (initialState ⟨0, 0, 0, 8, 0⟩ [(97 : Fin 256)] BufMode.unbuffered) (97 : Fin 256) [] rfl⟩

/-- C6: when bytes are pending, flushing discards them all: the next poll
reports 0 bytes and a subsequent read blocks (returns no byte, modelled as
`none`) — no byte queued before the flush is ever delivered. -/
theorem c6_flush_discards (o1 o2 o3 : SysOutcomes) (s : IOState) (h : s.pending ≠ []) :
    (pollInput o2 (flushInput o1 s).1).1 = 0
    ∧ readChar o3 (flushInput o1 s).1 = none := by
  constructor
  · simp [pollInput, ioctlFionread, flushInput, ioctlTcflsh]
  · simp [readChar, readByte, flushInput, ioctlTcflsh]

theorem c6_flush_discards_witness :
    (initialState ⟨0, 0, 0, 8, 0⟩ [(113 : Fin 256), (10 : Fin 256)] BufMode.unbuffered).pending ≠ []
    ∧ ((pollInput okOutcomes (flushInput okOutcomes
          (initialState ⟨0, 0, 0, 8, 0⟩ [(113 : Fin 256), (10 : Fin 256)] BufMode.unbuffered)).1).1 = 0
      ∧ readChar okOutcomes (flushInput okOutcomes
          (initialState ⟨0, 0, 0, 8, 0⟩ [(113 : Fin 256), (10 : Fin 256)] BufMode.unbuffered)).1 = none) :=
  ⟨by decide, c6_flush_discards okOutcomes okOutcomes okOutcomes
    (initialState ⟨0, 0, 0, 8, 0⟩ [(113 : Fin 256), (10 : Fin 256)] BufMode.unbuffered) (by decide)⟩

/-- C7: `_kbhit` reports the pending byte count without consuming input or
blocking; right after an enable with nothing pending it reports 0; with
bytes pending it reports at least 1; and `_getch` consumes exactly one
byte, so the next poll reports one less. -/
theorem c7_poll_semantics (o1 o2 o3 o4 : SysOutcomes) (s : IOState) :
    (pollInput o1 s).1 = (s.pending.length : Int)
    ∧ (pollInput o1 s).2.1 = s
    ∧ (pollInput o2 ((enable o3 s).1)).1 = (s.pending.length : Int)
    ∧ (s.pending = [] → (pollInput o2 ((enable o3 s).1)).1 = 0)
    ∧ (s.pending ≠ [] → 1 ≤ (pollInput o1 s).1)
    ∧ (∀ b rest, s.pending = b :: rest →
        ∃ s1, readChar o4 s = some (signExtendByte b, s1, [Sys.readC])
          ∧ s1.pending.length + 1 = s.pending.length
          ∧ (pollInput o2 s1).1 = (pollInput o1 s).1 - 1) := by
  have hpend : ((enable o3 s).1).pending = s.pending := by
    by_cases hi : s.initialized = false <;>
      simp [enable, hi, tcgetattrM, tcsetattrM, setbufNull]
  refine ⟨rfl, rfl, ?_, ?_, ?_, ?_⟩
  · simp [pollInput, ioctlFionread, hpend]
  · intro hp
    simp [pollInput, ioctlFionread, hpend, hp]
  · intro hp
    have : 0 < s.pending.length := List.length_pos.mpr hp
    simp only [pollInput, ioctlFionread]
    exact_mod_cast this
  · intro b rest hbr
    refine ⟨{ s with pending := rest }, ?_, ?_, ?_⟩
    · simp [readChar, readByte, hbr]
    · simp [hbr]
    · simp only [pollInput, ioctlFionread, hbr, List.length_cons]
      push_cast
      ring

theorem c7_poll_semantics_witness :
    (pollInput okOutcomes (initialState ⟨0, 0, 0, 10, 0⟩ [(113 : Fin 256)] BufMode.unbuffered)).1
        = (((initialState ⟨0, 0, 0, 10, 0⟩ [(113 : Fin 256)] BufMode.unbuffered).pending.length : Nat) : Int)
    ∧ (pollInput okOutcomes (initialState ⟨0, 0, 0, 10, 0⟩ [(113 : Fin 256)] BufMode.unbuffered)).2.1
        = initialState ⟨0, 0, 0, 10, 0⟩ [(113 : Fin 256)] BufMode.unbuffered
    ∧ (pollInput okOutcomes ((enable okOutcomes
          (initialState ⟨0, 0, 0, 10, 0⟩ [(113 : Fin 256)] BufMode.unbuffered)).1)).1
        = (((initialState ⟨0, 0, 0, 10, 0⟩ [(113 : Fin 256)] BufMode.unbuffered).pending.length : Nat) : Int)
    ∧ ((initialState ⟨0, 0, 0, 10, 0⟩ [(113 : Fin 256)] BufMode.unbuffered).pending = [] →
        (pollInput okOutcomes ((enable okOutcomes
          (initialState ⟨0, 0, 0, 10, 0⟩ [(113 : Fin 256)] BufMode.unbuffered)).1)).1 = 0)
    ∧ ((initialState ⟨0, 0, 0, 10, 0⟩ [(113 : Fin 256)] BufMode.unbuffered).pending ≠ [] →
        1 ≤ (pollInput okOutcomes (initialState ⟨0, 0, 0, 10, 0⟩ [(113 : Fin 256)] BufMode.unbuffered)).1)
    ∧ (∀ b rest,
        (initialState ⟨0, 0, 0, 10, 0⟩ [(113 : Fin 256)] BufMode.unbuffered).pending = b :: rest →
        ∃ s1, readChar okOutcomes (initialState ⟨0, 0, 0, 10, 0⟩ [(113 : Fin 256)] BufMode.unbuffered)
            = some (signExtendByte b, s1, [Sys.readC])
          ∧ s1.pending.length + 1
            = (initialState ⟨0, 0, 0, 10, 0⟩ [(113 : Fin 256)] BufMode.unbuffered).pending.length
          ∧ (pollInput okOutcomes s1).1
            = (pollInput okOutcomes (initialState ⟨0, 0, 0, 10, 0⟩ [(113 : Fin 256)] BufMode.unbuffered)).1 - 1) :=
  c7_poll_semantics okOutcomes okOutcomes okOutcomes okOutcomes
    (initialState ⟨0, 0, 0, 10, 0⟩ [(113 : Fin 256)] BufMode.unbuffered)

/-- C8: a disable with no prior enable writes the zero-initialized
`term_backup` to the terminal — the misuse is not detected and the terminal
is not left unchanged (whenever its attributes were not already all
zero). -/
theorem c8_disable_without_enable (o : SysOutcomes) (attrs : Termios)
    (pend : List (Fin 256)) (buf : BufMode) :
    (disable o (initialState attrs pend buf)).1.termAttrs = zeroTermios
    ∧ (attrs ≠ zeroTermios → (disable o (initialState attrs pend buf)).1.termAttrs ≠ attrs) := by
  have hz : (disable o (initialState attrs pend buf)).1.termAttrs = zeroTermios := by
    simp [disable, setlinebufM, tcsetattrM, initialState]
  refine ⟨hz, ?_⟩
  intro hne
  rw [hz]
  exact Ne.symm hne

theorem c8_disable_without_enable_witness :
    (disable okOutcomes (initialState ⟨1, 2, 3, 10, 4⟩ [] BufMode.lineBuffered)).1.termAttrs
        = zeroTermios
    ∧ ((⟨1, 2, 3, 10, 4⟩ : Termios) ≠ zeroTermios →
        (disable okOutcomes (initialState ⟨1, 2, 3, 10, 4⟩ [] BufMode.lineBuffered)).1.termAttrs
          ≠ ⟨1, 2, 3, 10, 4⟩) :=
  c8_disable_without_enable okOutcomes ⟨1, 2, 3, 10, 4⟩ [] BufMode.lineBuffered

/-- C9: no operation inspects the status code of any underlying OS call —
the resulting state, return value and call trace are identical under every
assignment of statuses — and each operation performs each OS call at most
once (no retry), producing no error value of its own. -/
theorem c9_outcomes_ignored (o o' : SysOutcomes) (s : IOState) :
    enable o s = enable o' s
    ∧ disable o s = disable o' s
    ∧ pollInput o s = pollInput o' s
    ∧ readChar o s = readChar o' s
    ∧ flushInput o s = flushInput o' s
    ∧ (enable o s).2.Nodup
    ∧ (disable o s).2.Nodup
    ∧ (pollInput o s).2.2.Nodup
    ∧ (flushInput o s).2.Nodup
    ∧ (∀ r ∈ readChar o s, r.2.2.Nodup) := by
  refine ⟨rfl, rfl, rfl, ?_, rfl, ?_, ?_, ?_, ?_, ?_⟩
  · cases hp : s.pending <;> simp [readChar, readByte, hp]
  · by_cases hi : s.initialized = false <;> simp [enable, hi]
  · show List.Nodup [Sys.setlinebufC, Sys.tcsetattrC]
    decide
  · show List.Nodup [Sys.ioctlFionreadC]
    decide
  · show List.Nodup [Sys.ioctlTcflshC]
    decide
  · cases hp : s.pending <;> simp [readChar, readByte, hp]

/-- Every bit of the 32-bit mask `~ICANON` other than bit 1 is set. -/
lemma mask32_testBit (i : Nat) (h1 : i < 32) (h2 : i ≠ 1) :
    Nat.testBit (complement32 ICANON) i = true := by
  interval_cases i <;> first | decide | exact absurd rfl h2

/-- A 32-bit value has no bits at position 32 or above. -/
lemma testBit_ge32 (x i : Nat) (hx : x < 2 ^ 32) (hi : 32 ≤ i) :
    Nat.testBit x i = false :=
  Nat.testBit_eq_false_of_lt (lt_of_lt_of_le hx (Nat.pow_le_pow_right (by norm_num) hi))

/-- `l &= ~ICANON` leaves every bit other than bit 1 unchanged. -/
lemma clear_preserves_other_bits (l : Nat) (i : Nat) (hl : l < 2 ^ 32) (hi : i ≠ 1) :
    Nat.testBit (l &&& complement32 ICANON) i = Nat.testBit l i := by
  rcases Nat.lt_or_ge i 32 with h32 | h32
  · rw [Nat.testBit_land, mask32_testBit i h32 hi, Bool.and_true]
  · simp [Nat.testBit_land, testBit_ge32 l i hl h32]

/-- `l &= ~ICANON` clears bit 1. -/
lemma clear_kills_icanon_bit (l : Nat) :
    Nat.testBit (l &&& complement32 ICANON) ICANONbit = false := by
  rw [Nat.testBit_land]
  have hm : Nat.testBit (complement32 ICANON) ICANONbit = false := by decide
  rw [hm, Bool.and_false]

/-- C10: the only terminal-attribute change a first enable applies is
clearing the ICANON bit (bit 1) of `c_lflag`: the input, output and control
flag words and the control characters are written back verbatim, and every
other `c_lflag` bit — in particular the ECHO bit (bit 3) — keeps its prior
value. -/
theorem c10_enable_frame (o : SysOutcomes) (s : IOState)
    (hl : s.termAttrs.c_lflag < 2 ^ 32) :
    (enable o { s with initialized := false }).1.termAttrs.c_iflag = s.termAttrs.c_iflag
    ∧ (enable o { s with initialized := false }).1.termAttrs.c_oflag = s.termAttrs.c_oflag
    ∧ (enable o { s with initialized := false }).1.termAttrs.c_cflag = s.termAttrs.c_cflag
    ∧ (enable o { s with initialized := false }).1.termAttrs.c_cc = s.termAttrs.c_cc
    ∧ Nat.testBit (enable o { s with initialized := false }).1.termAttrs.c_lflag ICANONbit = false
    ∧ (∀ i, i ≠ ICANONbit →
        Nat.testBit (enable o { s with initialized := false }).1.termAttrs.c_lflag i
          = Nat.testBit s.termAttrs.c_lflag i)
    ∧ Nat.testBit (enable o { s with initialized := false }).1.termAttrs.c_lflag ECHObit
        = Nat.testBit s.termAttrs.c_lflag ECHObit := by
  have he : (enable o { s with initialized := false }).1.termAttrs
      = { s.termAttrs with c_lflag := s.termAttrs.c_lflag &&& complement32 ICANON } := by
    simp [enable, tcgetattrM, tcsetattrM, setbufNull]
  rw [he]
  refine ⟨rfl, rfl, rfl, rfl, clear_kills_icanon_bit _, ?_, ?_⟩
  · intro i hi
    exact clear_preserves_other_bits _ i hl hi
  · exact clear_preserves_other_bits _ ECHObit hl (by decide)

theorem c10_enable_frame_witness :
    (initialState ⟨1, 2, 3, 10, 4⟩ [] BufMode.lineBuffered).termAttrs.c_lflag < 2 ^ 32
    ∧ ((enable okOutcomes { initialState ⟨1, 2, 3, 10, 4⟩ [] BufMode.lineBuffered with
          initialized := false }).1.termAttrs.c_iflag
        = (initialState ⟨1, 2, 3, 10, 4⟩ [] BufMode.lineBuffered).termAttrs.c_iflag
      ∧ (enable okOutcomes { initialState ⟨1, 2, 3, 10, 4⟩ [] BufMode.lineBuffered with
          initialized := false }).1.termAttrs.c_oflag
        = (initialState ⟨1, 2, 3, 10, 4⟩ [] BufMode.lineBuffered).termAttrs.c_oflag
      ∧ (enable okOutcomes { initialState ⟨1, 2, 3, 10, 4⟩ [] BufMode.lineBuffered with
          initialized := false }).1.termAttrs.c_cflag
        = (initialState ⟨1, 2, 3, 10, 4⟩ [] BufMode.lineBuffered).termAttrs.c_cflag
      ∧ (enable okOutcomes { initialState ⟨1, 2, 3, 10, 4⟩ [] BufMode.lineBuffered with
          initialized := false }).1.termAttrs.c_cc
        = (initialState ⟨1, 2, 3, 10, 4⟩ [] BufMode.lineBuffered).termAttrs.c_cc
      ∧ Nat.testBit (enable okOutcomes { initialState ⟨1, 2, 3, 10, 4⟩ [] BufMode.lineBuffered with
          initialized := false }).1.termAttrs.c_lflag ICANONbit = false
      ∧ (∀ i, i ≠ ICANONbit →
          Nat.testBit (enable okOutcomes { initialState ⟨1, 2, 3, 10, 4⟩ [] BufMode.lineBuffered with
            initialized := false }).1.termAttrs.c_lflag i
            = Nat.testBit (initialState ⟨1, 2, 3, 10, 4⟩ [] BufMode.lineBuffered).termAttrs.c_lflag i)
      ∧ Nat.testBit (enable okOutcomes { initialState ⟨1, 2, 3, 10, 4⟩ [] BufMode.lineBuffered with
          initialized := false }).1.termAttrs.c_lflag ECHObit
        = Nat.testBit (initialState ⟨1, 2, 3, 10, 4⟩ [] BufMode.lineBuffered).termAttrs.c_lflag ECHObit) :=
  ⟨by decide, c10_enable_frame okOutcomes (initialState ⟨1, 2, 3, 10, 4⟩ [] BufMode.lineBuffered)
    (by decide)⟩
